import Mathlib

/-!
Shallow embedding of the mykonos-agent backend (memory, agent/tool
orchestration, research agent, scraper manager, HTTP fetcher) and proofs
about it.  Python values are modelled by `PyVal`, Python exceptions by
`PyErr`; fallible code returns `Except PyErr _`.  Machine times
(`datetime` / `time.time()`) are modelled as abstract `Nat` instants
threaded explicitly.
-/

/-- A Python runtime value as used by this code base: `None`, booleans,
integers, strings, lists and string-keyed dicts. -/
inductive PyVal where
  | pnone : PyVal
  | pbool : Bool → PyVal
  | pint : Int → PyVal
  | pstr : String → PyVal
  | plist : List PyVal → PyVal
  | pdict : List (String × PyVal) → PyVal
deriving Repr

/-- Structural equality of Python values (the `==` / set-membership
equality used by this code base). -/
def PyVal.beq : PyVal → PyVal → Bool
  | .pnone, .pnone => true
  | .pbool a, .pbool b => a == b
  | .pint a, .pint b => a == b
  | .pstr a, .pstr b => a == b
  | .plist [], .plist [] => true
  | .plist (x :: xs), .plist (y :: ys) =>
      PyVal.beq x y && PyVal.beq (.plist xs) (.plist ys)
  | .pdict [], .pdict [] => true
  | .pdict ((k1, v1) :: xs), .pdict ((k2, v2) :: ys) =>
      k1 == k2 && PyVal.beq v1 v2 && PyVal.beq (.pdict xs) (.pdict ys)
  | _, _ => false
termination_by a _ => sizeOf a
decreasing_by all_goals (simp_wf <;> omega)

theorem PyVal.beq_iff_eq : ∀ a b : PyVal, PyVal.beq a b = true ↔ a = b := by
  intro a b
  induction a, b using PyVal.beq.induct <;> simp_all [PyVal.beq]
  rintro rfl
  rename_i a h1 h2 h3 h4 h5 h6 h7 h8
  cases a with
  | pnone => exact h1 rfl rfl
  | pbool b =>
    cases b with
    | false => exact h2.1.1 rfl rfl
    | true => exact h2.2.2 rfl rfl
  | pint n => exact h3 n n rfl rfl
  | pstr s => exact h4 s s rfl rfl
  | plist l =>
    cases l with
    | nil => exact h5 rfl rfl
    | cons x xs => exact h6 x xs x xs rfl rfl
  | pdict l =>
    cases l with
    | nil => exact h7 rfl rfl
    | cons kv t => exact h8 kv.1 kv.2 t kv.1 kv.2 t rfl rfl

instance : DecidableEq PyVal :=
  fun a b => decidable_of_iff _ (PyVal.beq_iff_eq a b)

/-- The Python exceptions this code base can raise or catch. -/
inductive PyErr where
  | attributeError (name : String)
  | keyError (key : String)
  | typeError (msg : String)
  | valueError (msg : String)
deriving Repr, DecidableEq

/-- Rendering of an exception as `str(e)`, used when building error
messages. -/
def PyErr.msg : PyErr → String
  | .attributeError n => "object has no attribute " ++ n
  | .keyError k => k
  | .typeError m => m
  | .valueError m => m

/-- Python truthiness of a value (`bool(v)`). -/
def PyVal.truthy : PyVal → Bool
  | .pnone => false
  | .pbool b => b
  | .pint n => n ≠ 0
  | .pstr s => s ≠ ""
  | .plist xs => !xs.isEmpty
  | .pdict kvs => !kvs.isEmpty

/-- Attribute read `v.name` on a plain data value.  None, bools, ints,
strings, lists and dicts expose no plain data attributes (in particular a
dict `d` has no attribute `d.success`), so the read raises
`AttributeError`.  Method calls that do exist on these values (`d.get`,
`s.lower`, ...) are embedded as dedicated functions instead. -/
def PyVal.getAttr (v : PyVal) (name : String) : Except PyErr PyVal :=
  match v with
  | _ => .error (.attributeError name)

/-- `d.get(k)` on a dict: the stored value, or `None` when absent. -/
def pyDictGet (kvs : List (String × PyVal)) (k : String) : PyVal :=
  match kvs.lookup k with
  | some v => v
  | none => .pnone

/-- `d.get(k, default)` on a dict. -/
def pyDictGetD (kvs : List (String × PyVal)) (k : String) (default : PyVal) : PyVal :=
  match kvs.lookup k with
  | some v => v
  | none => default

/-- `d[k]` on a dict: raises `KeyError` when absent. -/
def pyDictItem (kvs : List (String × PyVal)) (k : String) : Except PyErr PyVal :=
  match kvs.lookup k with
  | some v => .ok v
  | none => .error (.keyError k)

/-- Whether a value is hashable (usable as a set member): everything here
but lists and dicts. -/
def PyVal.hashable : PyVal → Bool
  | .plist _ => false
  | .pdict _ => false
  | _ => true

/-!  ## Memory (backend/app/agents/memory.py)  -/

/-- `MemoryItem`: one memory entry (content, creation time, metadata). -/
structure MemoryItem where
  content : PyVal
  timestamp : Nat
  metadata : List (String × PyVal)
deriving Repr, DecidableEq

/-- `Memory`: short-term and long-term ordered stores plus the short-term
capacity bound. -/
structure Memory where
  short_term : List MemoryItem
  long_term : List MemoryItem
  max_short_term : Nat
deriving Repr, DecidableEq

/-- `Memory.__init__(max_short_term)`. -/
def Memory.empty (max_short_term : Nat) : Memory :=
  { short_term := [], long_term := [], max_short_term := max_short_term }

/-- `Memory._consolidate_memories`: move the oldest half (`len // 2`) of
short-term to the end of long-term. -/
def Memory.consolidate_memories (m : Memory) : Memory :=
  let split := m.short_term.length / 2
  { m with
    long_term := m.long_term ++ m.short_term.take split
    short_term := m.short_term.drop split }

/-- `Memory.add_observation(content, metadata)`: append a fresh item to
short-term, then consolidate when the length exceeds the bound.  The
item creation time `now` models `datetime.utcnow()`. -/
def Memory.add_observation (m : Memory) (content : PyVal)
    (metadata : List (String × PyVal)) (now : Nat) : Memory :=
  let item : MemoryItem := { content := content, timestamp := now, metadata := metadata }
  let m1 := { m with short_term := m.short_term ++ [item] }
  if m1.short_term.length > m1.max_short_term then
    m1.consolidate_memories
  else
    m1

/-- `Memory.retrieve_relevant_memories(query, limit)`: the first `limit`
items of short-term followed by long-term; the query is unused. -/
def Memory.retrieve_relevant_memories (m : Memory) (_query : String)
    (limit : Nat) : List MemoryItem :=
  let all_memories := m.short_term ++ m.long_term
  all_memories.take limit

/-- Run a sequence of `add_observation` calls, one per listed item. -/
def Memory.addItems (m : Memory) (xs : List MemoryItem) : Memory :=
  xs.foldl (fun acc it => acc.add_observation it.content it.metadata it.timestamp) m

/-!  ## Tools and the base agent (backend/app/agents/tool.py, agent.py)  -/

/-- `ToolResult`: outcome of a tool execution. -/
structure ToolResult where
  success : Bool
  output : PyVal
  error : Option String
deriving Repr, DecidableEq

/-- `result.dict()` serialization of a `ToolResult` (pydantic `.dict()`). -/
def ToolResult.toDict (r : ToolResult) : PyVal :=
  .pdict [("success", .pbool r.success),
          ("output", r.output),
          ("error", match r.error with | some s => .pstr s | none => .pnone)]

/-- `BaseTool`: a named tool whose `execute(**parameters)` either returns a
`ToolResult` or raises. -/
structure BaseTool where
  name : String
  exec : List (String × PyVal) → Except PyErr ToolResult

/-- `AgentState`: the agent state machine values. -/
inductive AgentState where
  | idle
  | thinking
  | acting
  | error
deriving Repr, DecidableEq

/-- `AIAgent`: name, role, current state, memory and the name→tool map. -/
structure AIAgent where
  name : String
  role : String
  state : AgentState
  memory : Memory
  tools : List (String × BaseTool)

/-- `AIAgent.get_tool(tool_name)`: the registered tool, or a `ValueError`
when absent. -/
def AIAgent.get_tool (a : AIAgent) (tool_name : String) : Except PyErr BaseTool :=
  match a.tools.lookup tool_name with
  | none => .error (.valueError ("Tool " ++ tool_name ++ " not found"))
  | some t => .ok t

/-- `AIAgent.observe(source, content, metadata)`: record an observation in
memory (the `source` only feeds logging). -/
def AIAgent.observe (a : AIAgent) (_source : String) (content : PyVal)
    (metadata : List (String × PyVal)) (now : Nat) : AIAgent :=
  { a with memory := a.memory.add_observation content metadata now }

/-- `AIAgent.act(action, parameters)`: set state to acting, look the tool
up, execute it, record an observation of the action, and return the
`{success, output, error}` dict; every exception from lookup or execution
is caught and turned into a `{success: False, output: None, error: msg}`
dict; the `finally` block resets state to idle on both paths. -/
def AIAgent.act (a : AIAgent) (action : String) (parameters : List (String × PyVal))
    (now : Nat) : PyVal × AIAgent :=
  let a0 := { a with state := AgentState.acting }
  let body : Except PyErr (PyVal × AIAgent) := do
    let tool ← a0.get_tool action
    let result ← tool.exec parameters
    let a1 := a0.observe "action_result" (.pstr ("Executed " ++ action))
      [("action", .pstr action),
       ("parameters", .pdict parameters),
       ("result", result.toDict)] now
    pure (.pdict [("success", .pbool result.success),
                  ("output", result.output),
                  ("error", match result.error with | some s => .pstr s | none => .pnone)],
          a1)
  match body with
  | .ok (ret, a1) => (ret, { a1 with state := AgentState.idle })
  | .error e =>
      (.pdict [("success", .pbool false),
               ("output", .pnone),
               ("error", .pstr ("Error executing action " ++ action ++ ": " ++ e.msg))],
       { a0 with state := AgentState.idle })

/-!  ## Python operation helpers used by the research agent  -/

/-- Method call `v.get(k)` / `v.get(k, default)` receiver dispatch: only
dicts have `.get`; any other receiver raises `AttributeError`. -/
def pyCallGet (v : PyVal) (k : String) : Except PyErr PyVal :=
  match v with
  | .pdict kvs => .ok (pyDictGet kvs k)
  | _ => .error (.attributeError "get")

/-- Method call `v.get(k, default)` receiver dispatch. -/
def pyCallGetD (v : PyVal) (k : String) (default : PyVal) : Except PyErr PyVal :=
  match v with
  | .pdict kvs => .ok (pyDictGetD kvs k default)
  | _ => .error (.attributeError "get")

/-- Subscript `v[k]` with a string key. -/
def pySubscript (v : PyVal) (k : String) : Except PyErr PyVal :=
  match v with
  | .pdict kvs => pyDictItem kvs k
  | _ => .error (.typeError "object is not subscriptable")

/-- `len(v)`. -/
def pyLen (v : PyVal) : Except PyErr Int :=
  match v with
  | .pstr s => .ok s.length
  | .plist xs => .ok xs.length
  | .pdict kvs => .ok kvs.length
  | _ => .error (.typeError "object has no len")

/-- `l > v` for an int `l` against a Python value (bools count as ints). -/
def pyGtInt (l : Int) (v : PyVal) : Except PyErr Bool :=
  match v with
  | .pint m => .ok (l > m)
  | .pbool b => .ok (l > (if b then 1 else 0))
  | _ => .error (.typeError "gt not supported between these instances")

/-- Python prefix-slice index: `xs[:n]` keeps `n` items, counting from the
end when `n` is negative, clamped into range. -/
def sliceIdx (n : Int) (len : Nat) : Nat :=
  if n < 0 then ((len : Int) + n).toNat else n.toNat

/-- `v[:n]`: defined on lists and strings; slicing anything else used here
(a dict) raises `TypeError`. -/
def pySliceTo (v : PyVal) (n : PyVal) : Except PyErr PyVal :=
  match n with
  | .pint i =>
    (match v with
     | .plist xs => .ok (.plist (xs.take (sliceIdx i xs.length)))
     | .pstr s => .ok (.pstr (String.mk (s.data.take (sliceIdx i s.length))))
     | _ => .error (.typeError "unhashable type: slice"))
  | .pbool b =>
    (match v with
     | .plist xs => .ok (.plist (xs.take (sliceIdx (if b then 1 else 0) xs.length)))
     | .pstr s => .ok (.pstr (String.mk (s.data.take (sliceIdx (if b then 1 else 0) s.length))))
     | _ => .error (.typeError "unhashable type: slice"))
  | _ => .error (.typeError "slice indices must be integers")

/-- Iterating `for x in v`: lists yield elements, strings their
characters, dicts their keys; other values raise `TypeError`. -/
def pyIter (v : PyVal) : Except PyErr (List PyVal) :=
  match v with
  | .plist xs => .ok xs
  | .pstr s => .ok (s.data.map (fun c => .pstr (String.singleton c)))
  | .pdict kvs => .ok (kvs.map (fun kv => .pstr kv.1))
  | _ => .error (.typeError "object is not iterable")

/-- `str(v)` as used in message/f-string interpolation.  String payloads
render exactly; other values get an abstract rendering (no proved claim
depends on the rendered text of non-string values). -/
def pyStr : PyVal → String
  | .pnone => "None"
  | .pbool true => "True"
  | .pbool false => "False"
  | .pint n => toString n
  | .pstr s => s
  | .plist _ => "[list]"
  | .pdict _ => "[dict]"

/-- Python substring test `needle in hay`. -/
def strContains (hay needle : String) : Bool :=
  (hay.splitOn needle).length > 1

/-- Python `\s` whitespace class (ASCII subset). -/
def isPySpace (c : Char) : Bool :=
  c = ' ' || c = '\t' || c = '\n' || c = '\r' || c = '\x0b' || c = '\x0c'

/-- `datetime.utcnow().isoformat()` over the abstract clock. -/
def isoformat (now : Nat) : String := toString now

/-!  ## Web search tool (backend/app/agents/tools/web_search.py)  -/

/-- Body of `WebSearchTool.execute(query, num_results=5, domain=None)`:
call `llm_client.search_web`, truncate to `num_results` when longer, and
wrap in a success `ToolResult`; every exception inside the body is caught
and converted to a failure `ToolResult`. -/
def webSearchExecuteBody (search_web : PyVal → PyVal → Except PyErr PyVal)
    (query : PyVal) (num_results : PyVal) (domain : PyVal) : ToolResult :=
  let run : Except PyErr PyVal := do
    let search_results ← search_web query domain
    let search_results ←
      if search_results.truthy then do
        let l ← pyLen search_results
        let gt ← pyGtInt l num_results
        if gt then pySliceTo search_results num_results else pure search_results
      else pure search_results
    let cnt ← if search_results.truthy then pyLen search_results else pure 0
    pure (.pdict [("query", query),
                  ("results", if search_results.truthy then search_results else .plist []),
                  ("result_count", .pint cnt)])
  match run with
  | .ok out => { success := true, output := out, error := none }
  | .error e =>
      { success := false, output := .pnone,
        error := some ("Error performing web search: " ++ e.msg) }

/-- `WebSearchTool` as a `BaseTool`: `execute(**parameters)` first binds
the keyword arguments (`query` required; `num_results` defaults to 5;
`domain` defaults to `None`; any other key raises `TypeError` at the call
boundary, outside the body's try), then runs the body. -/
def WebSearchTool (search_web : PyVal → PyVal → Except PyErr PyVal) : BaseTool :=
  { name := "web_search"
    exec := fun params =>
      if params.any (fun p => !(p.1 == "query" || p.1 == "num_results" || p.1 == "domain")) then
        .error (.typeError "execute got an unexpected keyword argument")
      else
        match params.lookup "query" with
        | none => .error (.typeError "execute missing required argument query")
        | some q =>
            .ok (webSearchExecuteBody search_web q
                  (pyDictGetD params "num_results" (.pint 5))
                  (pyDictGetD params "domain" .pnone)) }

/-!  ## Research agent (backend/app/agents/research_agent.py)  -/

/-- External collaborators of the research agent: the web-search backend
(`llm_client.search_web`) and the LLM generation call
(`llm_client.generate_async`, reached through `_llm_generate`). -/
structure ResearchEnv where
  search_web : PyVal → PyVal → Except PyErr PyVal
  llm_generate : (prompt : String) → (system_message : String) → Except PyErr String

/-- The fixed domain allowlist `self.search_domains`. -/
def search_domains : List String :=
  ["github.com", "techcrunch.com", "venturebeat.com", "towardsdatascience.com",
   "medium.com", "reddit.com/r/MachineLearning", "news.ycombinator.com"]

/-- The research agent role string (abbreviated stand-in; no claim depends
on its text). -/
def researchRole : String :=
  "AI research assistant specialized in AI for software engineering automation"

/-- `ResearchAgent.__init__(name)`: base agent with default memory
(bound 100) and the web-search tool registered. -/
def ResearchAgent.make (env : ResearchEnv) (name : String) : AIAgent :=
  { name := name, role := researchRole, state := AgentState.idle,
    memory := Memory.empty 100,
    tools := [("web_search", WebSearchTool env.search_web)] }

/-- The domain-scoped search loop of `research_topic` (step 2): for each
domain, `act` a site-scoped search asking for 3 results, read
`search_result.success` / `search_result.output.get("results")` and extend
the accumulator from `search_result.output["results"]`; an exception
anywhere stops the loop and propagates, keeping the agent as of the raise
point. -/
def domain_search_loop (search_query : String) (now : Nat) :
    AIAgent → List PyVal → List String → Except PyErr (List PyVal) × AIAgent
  | ag, all_results, [] => (.ok all_results, ag)
  | ag, all_results, domain :: rest =>
    let r := ag.act "web_search"
      [("query", .pstr ("site:" ++ domain ++ " " ++ search_query)),
       ("num_results", .pint 3)] now
    let search_result := r.1
    let ag1 := r.2
    match search_result.getAttr "success" with
    | .error e => (.error e, ag1)
    | .ok succ =>
      if succ.truthy then
        match search_result.getAttr "output" with
        | .error e => (.error e, ag1)
        | .ok out =>
          match pyCallGet out "results" with
          | .error e => (.error e, ag1)
          | .ok res =>
            if res.truthy then
              match search_result.getAttr "output" with
              | .error e => (.error e, ag1)
              | .ok out2 =>
                match pySubscript out2 "results" with
                | .error e => (.error e, ag1)
                | .ok v =>
                  match pyIter v with
                  | .error e => (.error e, ag1)
                  | .ok items =>
                      domain_search_loop search_query now ag1 (all_results ++ items) rest
            else domain_search_loop search_query now ag1 all_results rest
      else domain_search_loop search_query now ag1 all_results rest

/-- The fallback unscoped search of `research_topic` (step 3), entered only
when the accumulator is empty; on a truthy result list the accumulator
variable is rebound to `search_result.output["results"]` (whatever value
that is). -/
def fallback_search (search_query : String) (max_results : Int) (now : Nat)
    (ag : AIAgent) (all_results : List PyVal) : Except PyErr PyVal × AIAgent :=
  if all_results.isEmpty then
    let r := ag.act "web_search"
      [("query", .pstr search_query), ("num_results", .pint (max_results * 2))] now
    let search_result := r.1
    let ag1 := r.2
    match search_result.getAttr "success" with
    | .error e => (.error e, ag1)
    | .ok succ =>
      if succ.truthy then
        match search_result.getAttr "output" with
        | .error e => (.error e, ag1)
        | .ok out =>
          match pyCallGet out "results" with
          | .error e => (.error e, ag1)
          | .ok res =>
            if res.truthy then
              match search_result.getAttr "output" with
              | .error e => (.error e, ag1)
              | .ok out2 =>
                match pySubscript out2 "results" with
                | .error e => (.error e, ag1)
                | .ok v => (.ok v, ag1)
            else (.ok (.plist all_results), ag1)
      else (.ok (.plist all_results), ag1)
  else (.ok (.plist all_results), ag)

/-- The deduplication loop of `research_topic` (step 4) over the iterated
results, threading `unique_results` and the `seen_urls` set.  A kept
result appends its url to the seen set; the loop breaks right after an
append makes `len(unique_results) >= max_results`.  `result.get("url")`
on a non-dict raises `AttributeError`; an unhashable url raises
`TypeError` at the set-membership test.  When `result.get("url")` is
truthy the key is present (a missing key yields the falsy `None`), so the
re-read `result["url"]` is that same value. -/
def dedup_loop (max_results : Int) :
    List PyVal → List PyVal → List PyVal → Except PyErr (List PyVal)
  | [], unique_results, _seen_urls => .ok unique_results
  | result :: rest, unique_results, seen_urls =>
    match result with
    | .pdict kvs =>
      let u := pyDictGet kvs "url"
      if u.truthy then
        if u.hashable then
          if seen_urls.any (fun w => PyVal.beq u w) then
            dedup_loop max_results rest unique_results seen_urls
          else
            let unique1 := unique_results ++ [result]
            let seen1 := seen_urls ++ [u]
            if (unique1.length : Int) ≥ max_results then .ok unique1
            else dedup_loop max_results rest unique1 seen1
        else .error (.typeError "unhashable type")
      else dedup_loop max_results rest unique_results seen_urls
    | _ => .error (.attributeError "get")

/-- Steps 4's entry: dedup over the accumulated results with empty
`unique_results` / `seen_urls`. -/
def dedup_results (all_results : List PyVal) (max_results : Int) :
    Except PyErr (List PyVal) :=
  dedup_loop max_results all_results [] []

/-- One entry of the analysis `results_text` block:
`Source: {title} ({url})\nSnippet: {snippet}` with the `.get` defaults of
the source. -/
def resultLine (r : PyVal) : Except PyErr String :=
  match r with
  | .pdict kvs =>
      .ok ("Source: " ++ pyStr (pyDictGetD kvs "title" (.pstr "No title"))
        ++ " (" ++ pyStr (pyDictGetD kvs "url" (.pstr "No URL")) ++ ")"
        ++ "\nSnippet: " ++ pyStr (pyDictGetD kvs "snippet" (.pstr "No snippet available")))
  | _ => .error (.attributeError "get")

/-- `"\n\n".join(...)` of the per-result lines (built outside the analysis
try, so its exceptions propagate). -/
def buildResultsText (results : List PyVal) : Except PyErr String := do
  let lines ← results.mapM resultLine
  pure (String.intercalate "\n\n" lines)

/-- Consume the rest of the current line (`[^\n]+` capture range). -/
def takeLine : List Char → List Char × List Char
  | [] => ([], [])
  | c :: cs =>
    if c = '\n' then ([], c :: cs)
    else
      let r := takeLine cs
      (c :: r.1, r.2)

/-- One attempted match of `(?:\d+\.\s*|•\s*)([^\n]+)` at the head of the
character list: returns the captured group and the remainder after the
match.  (Models the regex for the common case, without backtracking into
the greedy `\s*` run.) -/
def matchPointAt (cs : List Char) : Option (String × List Char) :=
  let afterMarker : Option (List Char) :=
    let digits := cs.takeWhile Char.isDigit
    if !digits.isEmpty then
      match cs.drop digits.length with
      | '.' :: rest => some rest
      | _ => none
    else
      match cs with
      | '•' :: rest => some rest
      | _ => none
  match afterMarker with
  | none => none
  | some rest =>
    let rest1 := rest.dropWhile isPySpace
    match takeLine rest1 with
    | ([], _) => none
    | (cap, rest2) => some (String.mk cap, rest2)

/-- `re.findall` of the key-point pattern over the analysis text: scan
left to right, emitting each match's capture and resuming after it. -/
def findPoints : Nat → List Char → List String
  | 0, _ => []
  | _, [] => []
  | fuel + 1, c :: cs =>
    match matchPointAt (c :: cs) with
    | some (cap, rest) => cap :: findPoints fuel rest
    | none => findPoints fuel cs

/-- The fixed analyst system prompt (abbreviated stand-in; no claim
depends on its text). -/
def analysisSystemPrompt : String :=
  "You are an expert AI research analyst."

/-- The structured analysis user prompt over topic and results text
(abbreviated stand-in; no claim depends on its exact wording). -/
def analysisUserPrompt (topic results_text : String) : String :=
  "Please analyze the following search results about " ++ topic ++ ": " ++ results_text

/-- `ResearchAgent._analyze_results(results, topic)`: the empty-results
short circuit, otherwise one LLM generation call whose failure is caught
and downgraded; also returns how many LLM generation calls were issued.
The result is `(outcome, llm_calls)`: an uncaught exception can only come
from the results-text construction, which precedes the try. -/
def analyze_results (env : ResearchEnv) (results : List PyVal) (topic : String)
    (now : Nat) : Except PyErr PyVal × Nat :=
  if results.isEmpty then
    (.ok (.pdict [("summary", .pstr "No relevant information found."),
                  ("key_points", .plist [])]), 0)
  else
    match buildResultsText results with
    | .error e => (.error e, 0)
    | .ok results_text =>
      let user_prompt := analysisUserPrompt topic results_text
      match env.llm_generate user_prompt analysisSystemPrompt with
      | .error e =>
          (.ok (.pdict [("summary", .pstr "Error analyzing search results."),
                        ("key_points", .plist [.pstr "Analysis failed due to an error."]),
                        ("error", .pstr e.msg)]), 1)
      | .ok analysis =>
          let key_points :=
            if strContains analysis.toLower "key points" || strContains analysis "1." then
              ((findPoints analysis.length analysis.data).map String.trim).filter
                (fun p => p ≠ "")
            else []
          (.ok (.pdict [("summary", .pstr analysis),
                        ("key_points",
                          if key_points.isEmpty then
                            .plist [.pstr "No specific key points extracted."]
                          else .plist (key_points.map PyVal.pstr)),
                        ("analysis_date", .pstr (isoformat now))]), 1)

/-- The body of `research_topic` inside its try block (steps 1-7 of the
spec): domain-scoped searches, fallback search, dedup, analysis, result
assembly and the completion observation.  Returns the outcome, the agent
as of normal return or of the raise point, and the number of LLM
generation calls issued. -/
def research_topic_body (env : ResearchEnv) (a0 : AIAgent) (topic : String)
    (max_results : Int) (now : Nat) : Except PyErr PyVal × AIAgent × Nat :=
  let search_query := topic ++ " AI software engineering automation"
  match domain_search_loop search_query now a0 [] search_domains with
  | (.error e, ag) => (.error e, ag, 0)
  | (.ok all_results, ag) =>
    match fallback_search search_query max_results now ag all_results with
    | (.error e, ag1) => (.error e, ag1, 0)
    | (.ok allv, ag1) =>
      match pyIter allv with
      | .error e => (.error e, ag1, 0)
      | .ok items =>
        match dedup_results items max_results with
        | .error e => (.error e, ag1, 0)
        | .ok unique_results =>
          match analyze_results env unique_results topic now with
          | (.error e, c) => (.error e, ag1, c)
          | (.ok analysis, c) =>
            let research_result : PyVal := .pdict
              [("topic", .pstr topic),
               ("search_date", .pstr (isoformat now)),
               ("sources_searched", .pint ((search_domains.length : Int) + 1)),
               ("results_found", .pint (unique_results.length : Int)),
               ("results", .plist unique_results),
               ("analysis", analysis)]
            match pyCallGetD analysis "summary" (.pstr "") with
            | .error e => (.error e, ag1, c)
            | .ok summary =>
              let ag2 := ag1.observe "research"
                (.pstr ("Completed research on " ++ topic))
                [("topic", .pstr topic), ("results_summary", summary)] now
              (.ok research_result, ag2, c)

/-- `ResearchAgent.research_topic(topic, max_results)`: set state to
thinking, run the body; the except branch flips state to error and
re-raises; the finally branch resets state to idle unless it is error. -/
def research_topic (env : ResearchEnv) (a : AIAgent) (topic : String)
    (max_results : Int) (now : Nat) : Except PyErr PyVal × AIAgent × Nat :=
  let a0 := { a with state := AgentState.thinking }
  match research_topic_body env a0 topic max_results now with
  | (.ok v, ag, c) =>
      let ag1 := if ag.state ≠ AgentState.error then { ag with state := AgentState.idle } else ag
      (.ok v, ag1, c)
  | (.error e, ag, c) =>
      let ag1 := { ag with state := AgentState.error }
      let ag2 := if ag1.state ≠ AgentState.error then { ag1 with state := AgentState.idle } else ag1
      (.error e, ag2, c)

/-!  ## Scrapers (backend/app/scrapers/base_scraper.py, __init__.py)  -/

/-- `ScrapedArticle`: the scraped item record; `published_date` is the
abstract timestamp used as the sort key. -/
structure ScrapedArticle where
  title : String
  url : String
  content : String
  published_date : Nat
  source : String
  authors : List String := []
  keywords : List String := []
  summary : Option String := none
  ai_related : Bool := false
  technologies : List String := []
  job_impact : List (String × List String) := []
deriving Repr, DecidableEq

/-- Insert one article into an already sorted (descending by
`published_date`) list, after every earlier article whose key is greater
or equal: this is the insertion step of the stable descending sort. -/
def insertDesc (x : ScrapedArticle) : List ScrapedArticle → List ScrapedArticle
  | [] => [x]
  | y :: ys =>
    if x.published_date > y.published_date then x :: y :: ys
    else y :: insertDesc x ys

/-- `all_articles.sort(key=lambda x: x.published_date, reverse=True)`:
Python's stable sort, descending on `published_date`, ties keeping the
original order.  Modelled as the stable insertion sort, which realizes
exactly that specification. -/
def pySortDesc (xs : List ScrapedArticle) : List ScrapedArticle :=
  xs.foldl (fun acc x => insertDesc x acc) []

/-- The fan-in of `ScraperManager.scrape_all` before sorting: concatenate
each scraper outcome in registration order, skipping failing scrapers
(their exception is logged and the loop continues). -/
def gatherArticles (scrapers : List (String × Except PyErr (List ScrapedArticle))) :
    List ScrapedArticle :=
  scrapers.foldl
    (fun all_articles s =>
      match s.2 with
      | .ok articles => all_articles ++ articles
      | .error _ => all_articles) []

/-- `ScraperManager.scrape_all(query)` over the outcomes the registered
scrapers produce for that query: gather then sort by publication date,
newest first. -/
def scrape_all (scrapers : List (String × Except PyErr (List ScrapedArticle))) :
    List ScrapedArticle :=
  pySortDesc (gatherArticles scrapers)

/-!  ## Fetcher (backend/app/scrapers/base_scraper.py `_make_request`)  -/

/-- The fetcher state a `BaseScraper` instance carries: the last request
time (initially 0) and the configured rate limit. -/
structure ScraperState where
  last_request_time : Nat
  rate_limit : Nat
deriving Repr, DecidableEq

/-- What the transport layer does with one HTTP request: deliver a
response with a status code and body, fail with a request/transport error
(timeouts included), or fail some other way. -/
inductive TransportResult where
  | response (status : Nat) (body : String)
  | requestError (msg : String)
  | otherError (msg : String)
deriving Repr, DecidableEq

/-- `response.raise_for_status()` raises exactly for 4xx/5xx codes. -/
def raisesForStatus (status : Nat) : Bool := 400 ≤ status

/-- `BaseScraper._make_request(url, ...)`: rate limiting sleeps (a pure
time effect, no state field changes), then the request runs; on a
delivered non-error status the last request time is set to the completion
instant `t` and the response is returned; every error path
(`HTTPStatusError` from `raise_for_status`, `RequestError` covering
timeouts, any other exception) is caught, logged and yields `None` with
the state untouched. -/
def make_request (st : ScraperState) (result : TransportResult) (t : Nat) :
    Option (Nat × String) × ScraperState :=
  match result with
  | .response status body =>
      if raisesForStatus status then (none, st)
      else (some (status, body), { st with last_request_time := t })
  | .requestError _ => (none, st)
  | .otherError _ => (none, st)

/-- A concrete memory item used by witnesses and counterexamples. -/
def itm (n : Nat) : MemoryItem :=
  { content := .pint n, timestamp := n, metadata := [] }

/-!  ## Theorems: Memory  -/

theorem Memory.add_observation_no_overflow (m : Memory) (x : MemoryItem)
    (h : m.short_term.length + 1 ≤ m.max_short_term) :
    m.add_observation x.content x.metadata x.timestamp =
      { m with short_term := m.short_term ++ [x] } := by
  unfold Memory.add_observation
  rw [if_neg]
  simp only [List.length_append, List.length_cons, List.length_nil]
  omega

theorem Memory.add_observation_overflow (m : Memory) (x : MemoryItem)
    (h : m.max_short_term < m.short_term.length + 1) :
    m.add_observation x.content x.metadata x.timestamp =
      { m with
        long_term := m.long_term ++ (m.short_term ++ [x]).take ((m.short_term.length + 1) / 2)
        short_term := (m.short_term ++ [x]).drop ((m.short_term.length + 1) / 2) } := by
  unfold Memory.add_observation Memory.consolidate_memories
  rw [if_pos]
  · simp [List.length_append]
  · simp only [List.length_append, List.length_cons, List.length_nil]
    omega

theorem Memory.addItems_under_bound :
    ∀ (xs : List MemoryItem) (m : Memory),
    m.short_term.length + xs.length ≤ m.max_short_term →
    m.addItems xs = { m with short_term := m.short_term ++ xs } := by
  intro xs
  induction xs with
  | nil => intro m _; simp [Memory.addItems]
  | cons x xs ih =>
    intro m h
    have hstep := Memory.add_observation_no_overflow m x (by simp at h; omega)
    have : m.addItems (x :: xs) = (m.add_observation x.content x.metadata x.timestamp).addItems xs := by
      simp [Memory.addItems]
    rw [this, hstep, ih]
    · simp
    · simp at h ⊢; omega

/-- C1: starting from an empty memory with capacity bound B ≥ 1, after
B+1 `add_observation` calls the one consolidation has moved exactly the
oldest ⌊(B+1)/2⌋ items into long-term in insertion order, short-term is
the remaining suffix in insertion order, short-term length is at most
⌈B/2⌉+1 and long-term length at least ⌊B/2⌋. -/
theorem memory_overflow_consolidation (B : Nat) (xs : List MemoryItem)
    (hB : 1 ≤ B) (hlen : xs.length = B + 1) :
    ((Memory.empty B).addItems xs).long_term = xs.take ((B + 1) / 2) ∧
    ((Memory.empty B).addItems xs).short_term = xs.drop ((B + 1) / 2) ∧
    ((Memory.empty B).addItems xs).short_term.length ≤ (B + 1) / 2 + 1 ∧
    B / 2 ≤ ((Memory.empty B).addItems xs).long_term.length := by
  obtain (h | ⟨ys, z, rfl⟩) := xs.eq_nil_or_concat
  · subst h; simp at hlen
  · have hys : ys.length = B := by
      simp only [List.concat_eq_append, List.length_append, List.length_cons,
        List.length_nil] at hlen
      omega
    have h1 : (Memory.empty B).addItems (ys.concat z) =
        ((Memory.empty B).addItems ys).addItems [z] := by
      simp [Memory.addItems, List.concat_eq_append]
    have h2 : (Memory.empty B).addItems ys =
        { short_term := ys, long_term := [], max_short_term := B } := by
      have := Memory.addItems_under_bound ys (Memory.empty B)
        (by simp [Memory.empty]; omega)
      simpa [Memory.empty] using this
    have h3 : ({ short_term := ys, long_term := [], max_short_term := B } : Memory).addItems [z] =
        ({ short_term := ys, long_term := [], max_short_term := B } : Memory).add_observation
          z.content z.metadata z.timestamp := by
      simp [Memory.addItems]
    have h4 := Memory.add_observation_overflow
      ({ short_term := ys, long_term := [], max_short_term := B } : Memory) z (by simp; omega)
    rw [h1, h2, h3, h4]
    simp only [List.concat_eq_append, List.nil_append]
    refine ⟨by rw [hys], by rw [hys], ?_, ?_⟩
    · simp only [List.length_drop, List.length_append, List.length_cons, List.length_nil]
      omega
    · simp only [List.length_take, List.length_append, List.length_cons, List.length_nil]
      omega

theorem memory_overflow_consolidation_witness :
    ((Memory.empty 3).addItems [itm 0, itm 1, itm 2, itm 3]).long_term =
      [itm 0, itm 1, itm 2, itm 3].take 2 ∧
    ((Memory.empty 3).addItems [itm 0, itm 1, itm 2, itm 3]).short_term =
      [itm 0, itm 1, itm 2, itm 3].drop 2 ∧
    ((Memory.empty 3).addItems [itm 0, itm 1, itm 2, itm 3]).short_term.length ≤ 3 ∧
    1 ≤ ((Memory.empty 3).addItems [itm 0, itm 1, itm 2, itm 3]).long_term.length :=
  memory_overflow_consolidation 3 [itm 0, itm 1, itm 2, itm 3] (by decide) (by decide)

/-- C4 counterexample: with bound B = 2, the insertion that makes
short-term length 3 consolidates down to length 2, which is not strictly
below the bound — refuting the claim as stated for every B. -/
theorem consolidation_not_below_bound_at_two :
    ((Memory.empty 2).addItems [itm 0, itm 1, itm 2]).short_term.length = 2 ∧
    ¬ ((Memory.empty 2).addItems [itm 0, itm 1, itm 2]).short_term.length < 2 := by
  decide

/-- C4 (amended): for capacity bound B ≥ 3, when an insertion crosses the
bound (short-term length was exactly B), the consolidation leaves the
short-term length strictly below B. -/
theorem consolidation_below_bound (m : Memory) (x : MemoryItem)
    (hB : 3 ≤ m.max_short_term) (hlen : m.short_term.length = m.max_short_term) :
    (m.add_observation x.content x.metadata x.timestamp).short_term.length <
      m.max_short_term := by
  rw [Memory.add_observation_overflow m x (by omega)]
  simp only [List.length_drop, List.length_append, List.length_cons, List.length_nil]
  omega

theorem consolidation_below_bound_witness :
    (({ short_term := [itm 0, itm 1, itm 2], long_term := [],
        max_short_term := 3 } : Memory).add_observation
      (itm 9).content (itm 9).metadata (itm 9).timestamp).short_term.length < 3 :=
  consolidation_below_bound _ (itm 9) (by decide) (by decide)

/-- C10: `retrieve_relevant_memories(query, limit)` returns the first
`limit` items of short-term followed by long-term, and is independent of
the query: any two query strings give the same list on the same memory
state. -/
theorem retrieve_relevant_memories_query_independent (m : Memory) (q1 q2 : String)
    (limit : Nat) :
    m.retrieve_relevant_memories q1 limit = (m.short_term ++ m.long_term).take limit ∧
    m.retrieve_relevant_memories q1 limit = m.retrieve_relevant_memories q2 limit :=
  ⟨rfl, rfl⟩

/-!  ## Theorems: agent act  -/

/-- A concrete agent with no tools registered. -/
def noToolsAgent : AIAgent :=
  { name := "a", role := "r", state := AgentState.idle,
    memory := Memory.empty 100, tools := [] }

/-- The fixed result of the always-succeeding test tool. -/
def echoResult : ToolResult :=
  { success := true, output := .pstr "ok", error := none }

/-- A tool that always succeeds, used to exercise the success path. -/
def echoTool : BaseTool :=
  { name := "echo", exec := fun _ => .ok echoResult }

/-- A concrete agent holding only `echoTool`. -/
def echoAgent : AIAgent :=
  { name := "a", role := "r", state := AgentState.idle,
    memory := Memory.empty 100, tools := [("echo", echoTool)] }

theorem ne_empty_of_length_pos (s : String) (h : 0 < s.length) : s ≠ "" := by
  intro he
  subst he
  simp at h

theorem length_concat_pos (s t : String) (h : 0 < s.length) : 0 < (s ++ t).length := by
  rw [String.length_append]
  omega

/-- C3 counterexample: `act` on an action with no registered tool returns
with the memory unchanged — no observation of the action is recorded —
even though the state is back to idle. -/
theorem act_unknown_action_records_no_observation :
    (noToolsAgent.act "web_search" [] 0).2.memory = noToolsAgent.memory ∧
    (noToolsAgent.act "web_search" [] 0).2.state = AgentState.idle :=
  ⟨rfl, rfl⟩

/-- C3 (amended): `act` always returns with state idle (the `finally`
block), but the observation of the action is recorded only when tool
lookup and tool execution both succeed; on an unknown tool or a raising
tool the memory is returned unchanged. -/
theorem act_cleanup_contract (a : AIAgent) (action : String)
    (params : List (String × PyVal)) (now : Nat) :
    ((a.act action params now).2.state = AgentState.idle) ∧
    (∀ t r, a.tools.lookup action = some t → t.exec params = .ok r →
      (a.act action params now).2.memory =
        a.memory.add_observation (.pstr ("Executed " ++ action))
          [("action", .pstr action), ("parameters", .pdict params),
           ("result", r.toDict)] now) ∧
    (a.tools.lookup action = none → (a.act action params now).2.memory = a.memory) ∧
    (∀ t e, a.tools.lookup action = some t → t.exec params = .error e →
      (a.act action params now).2.memory = a.memory) := by
  refine ⟨?_, ?_, ?_, ?_⟩
  · cases hl : a.tools.lookup action with
    | none => simp [AIAgent.act, AIAgent.get_tool, hl, Bind.bind, Except.bind]
    | some t =>
      cases he : t.exec params with
      | error e =>
        simp [AIAgent.act, AIAgent.get_tool, AIAgent.observe, hl, he,
          Bind.bind, Except.bind]
      | ok r =>
        simp [AIAgent.act, AIAgent.get_tool, AIAgent.observe, hl, he,
          Bind.bind, Except.bind, Pure.pure, Except.pure]
  · intro t r hl he
    simp [AIAgent.act, AIAgent.get_tool, AIAgent.observe, hl, he,
      Bind.bind, Except.bind, Pure.pure, Except.pure]
  · intro hl
    simp [AIAgent.act, AIAgent.get_tool, hl, Bind.bind, Except.bind]
  · intro t e hl he
    simp [AIAgent.act, AIAgent.get_tool, hl, he, Bind.bind, Except.bind]

theorem act_cleanup_contract_witness :
    ((echoAgent.act "echo" [] 0).2.state = AgentState.idle) ∧
    (echoAgent.act "echo" [] 0).2.memory =
      echoAgent.memory.add_observation (.pstr "Executed echo")
        [("action", .pstr "echo"), ("parameters", .pdict []),
         ("result", echoResult.toDict)] 0 :=
  ⟨(act_cleanup_contract echoAgent "echo" [] 0).1,
   (act_cleanup_contract echoAgent "echo" [] 0).2.1 echoTool echoResult rfl rfl⟩

/-- C5: whenever the tool lookup fails or the looked-up tool's execution
raises, `act` returns the `{success: False, output: None, error: msg}`
dict with a non-empty message; the embedding of `act` is total (never
raises), every lookup or execution failure being caught and converted
here. -/
theorem act_failure_contract (a : AIAgent) (action : String)
    (params : List (String × PyVal)) (now : Nat)
    (h : a.tools.lookup action = none ∨
         ∃ t e, a.tools.lookup action = some t ∧ t.exec params = .error e) :
    ∃ msg, msg ≠ "" ∧
      (a.act action params now).1 =
        .pdict [("success", .pbool false), ("output", .pnone), ("error", .pstr msg)] := by
  rcases h with hl | ⟨t, e, hl, he⟩
  · refine ⟨"Error executing action " ++ action ++ ": " ++
      (PyErr.valueError ("Tool " ++ action ++ " not found")).msg, ?_, ?_⟩
    · exact ne_empty_of_length_pos _
        (length_concat_pos _ _ (length_concat_pos _ _ (length_concat_pos _ _ (by decide))))
    · simp [AIAgent.act, AIAgent.get_tool, hl, Bind.bind, Except.bind]
  · refine ⟨"Error executing action " ++ action ++ ": " ++ e.msg, ?_, ?_⟩
    · exact ne_empty_of_length_pos _
        (length_concat_pos _ _ (length_concat_pos _ _ (length_concat_pos _ _ (by decide))))
    · simp [AIAgent.act, AIAgent.get_tool, hl, he, Bind.bind, Except.bind]

theorem act_failure_contract_witness :
    ∃ msg, msg ≠ "" ∧
      (noToolsAgent.act "search" [] 0).1 =
        .pdict [("success", .pbool false), ("output", .pnone), ("error", .pstr msg)] :=
  act_failure_contract noToolsAgent "search" [] 0 (Or.inl rfl)

/-!  ## Theorems: research agent  -/

theorem PyVal.getAttr_eq (v : PyVal) (n : String) :
    v.getAttr n = .error (.attributeError n) := by
  cases v <;> rfl

theorem domain_search_loop_first_raises (sq : String) (now : Nat) (ag : AIAgent)
    (acc : List PyVal) (d : String) (rest : List String) :
    domain_search_loop sq now ag acc (d :: rest) =
      (.error (.attributeError "success"),
       (ag.act "web_search"
         [("query", .pstr ("site:" ++ d ++ " " ++ sq)), ("num_results", .pint 3)]
         now).2) := by
  simp [domain_search_loop, PyVal.getAttr_eq]

theorem research_topic_body_raises (env : ResearchEnv) (a0 : AIAgent) (topic : String)
    (mr : Int) (now : Nat) :
    research_topic_body env a0 topic mr now =
      (.error (.attributeError "success"),
       (a0.act "web_search"
         [("query", .pstr ("site:" ++ "github.com" ++ " " ++
             (topic ++ " AI software engineering automation"))),
          ("num_results", .pint 3)] now).2,
       0) := by
  simp only [research_topic_body, search_domains, domain_search_loop_first_raises]

/-- C8: whenever `research_topic` propagates an exception the agent's
state is error afterwards (the except branch flips it and the finally
branch leaves error alone); whenever it returns normally the state is
idle.  (In this code every call in fact takes the exception path: the
body raises `AttributeError` on `search_result.success`, see the C2 bug,
so the normal-return half is vacuous here.) -/
theorem research_topic_state_contract (env : ResearchEnv) (a : AIAgent)
    (topic : String) (mr : Int) (now : Nat) :
    (∀ e, (research_topic env a topic mr now).1 = .error e →
      (research_topic env a topic mr now).2.1.state = AgentState.error) ∧
    (∀ v, (research_topic env a topic mr now).1 = .ok v →
      (research_topic env a topic mr now).2.1.state = AgentState.idle) := by
  simp only [research_topic, research_topic_body_raises]
  constructor
  · intro e _
    rfl
  · intro v hv
    simp at hv

/-- Environment in which every search returns zero results and the LLM
always answers. -/
def zeroSearchEnv : ResearchEnv :=
  { search_web := fun _ _ => .ok (.plist []),
    llm_generate := fun _ _ => .ok "unused" }

theorem research_topic_state_contract_witness :
    (research_topic zeroSearchEnv (ResearchAgent.make zeroSearchEnv "n") "t" 5 0).2.1.state =
      AgentState.error :=
  (research_topic_state_contract zeroSearchEnv (ResearchAgent.make zeroSearchEnv "n")
    "t" 5 0).1 (.attributeError "success")
    (by simp only [research_topic, research_topic_body_raises])

/-- C2 (evaluation of the code bug): on a topic for which every search
yields zero results, `research_topic` does not return the fixed
no-information analysis: it raises `AttributeError` on the very first
domain search (reading the attribute `success` of the plain dict `act`
returns), leaves the agent state at error, and issues no LLM generation
call. -/
theorem research_topic_zero_results_raises :
    (research_topic zeroSearchEnv
        (ResearchAgent.make zeroSearchEnv "AI Research Agent")
        "AI code generation tools" 5 0).1 = .error (.attributeError "success") ∧
    (research_topic zeroSearchEnv
        (ResearchAgent.make zeroSearchEnv "AI Research Agent")
        "AI code generation tools" 5 0).2.1.state = AgentState.error ∧
    (research_topic zeroSearchEnv
        (ResearchAgent.make zeroSearchEnv "AI Research Agent")
        "AI code generation tools" 5 0).2.2 = 0 := by
  refine ⟨?_, ?_, ?_⟩
  all_goals simp only [research_topic, research_topic_body_raises]
  all_goals rfl

/-!  ## Theorems: scraper manager sort and fetcher  -/

theorem mem_insertDesc (l : List ScrapedArticle) (x y : ScrapedArticle)
    (h : y ∈ insertDesc x l) : y = x ∨ y ∈ l := by
  induction l with
  | nil => simpa [insertDesc] using h
  | cons z zs ih =>
    by_cases hc : x.published_date > z.published_date
    · simpa [insertDesc, hc] using h
    · simp only [insertDesc, if_neg hc, List.mem_cons] at h
      rcases h with h | h
      · exact Or.inr (by simp [h])
      · rcases ih h with h1 | h1
        · exact Or.inl h1
        · exact Or.inr (by simp [h1])

theorem insertDesc_pairwise (l : List ScrapedArticle) (x : ScrapedArticle)
    (h : l.Pairwise (fun a b => b.published_date ≤ a.published_date)) :
    (insertDesc x l).Pairwise (fun a b => b.published_date ≤ a.published_date) := by
  induction l with
  | nil => simp [insertDesc]
  | cons y ys ih =>
    rcases List.pairwise_cons.mp h with ⟨hy, hys⟩
    by_cases hc : x.published_date > y.published_date
    · simp only [insertDesc, if_pos hc]
      refine List.pairwise_cons.mpr ⟨?_, h⟩
      intro z hz
      rcases List.mem_cons.mp hz with rfl | hz
      · omega
      · have := hy z hz
        omega
    · simp only [insertDesc, if_neg hc]
      refine List.pairwise_cons.mpr ⟨?_, ih hys⟩
      intro z hz
      rcases mem_insertDesc ys x z hz with rfl | hz
      · omega
      · exact hy z hz

theorem filter_insertDesc (l : List ScrapedArticle) (x : ScrapedArticle) (d : Nat)
    (h : l.Pairwise (fun a b => b.published_date ≤ a.published_date)) :
    (insertDesc x l).filter (fun a => a.published_date == d) =
      l.filter (fun a => a.published_date == d) ++
        (if x.published_date = d then [x] else []) := by
  induction l with
  | nil =>
    by_cases hd : x.published_date = d <;> simp [insertDesc, hd]
  | cons y ys ih =>
    rcases List.pairwise_cons.mp h with ⟨hy, hys⟩
    by_cases hc : x.published_date > y.published_date
    · simp only [insertDesc, if_pos hc]
      by_cases hd : x.published_date = d
      · have hnil : (y :: ys).filter (fun a => a.published_date == d) = [] := by
          refine List.filter_eq_nil_iff.mpr ?_
          intro z hz
          rcases List.mem_cons.mp hz with rfl | hz
          · simp; omega
          · have := hy z hz
            simp; omega
        rw [List.filter_cons_of_pos (by simp [hd])]
        rw [hnil, if_pos hd]
        simp
      · rw [List.filter_cons_of_neg (by simp [hd]), if_neg hd]
        simp
    · simp only [insertDesc, if_neg hc]
      by_cases hyd : y.published_date = d
      · rw [List.filter_cons_of_pos (by simp [hyd]),
          List.filter_cons_of_pos (by simp [hyd]), ih hys]
        simp
      · rw [List.filter_cons_of_neg (by simp [hyd]),
          List.filter_cons_of_neg (by simp [hyd]), ih hys]

theorem pySortDesc_invariant (xs : List ScrapedArticle) :
    ∀ acc : List ScrapedArticle,
    acc.Pairwise (fun a b => b.published_date ≤ a.published_date) →
    (xs.foldl (fun a x => insertDesc x a) acc).Pairwise
      (fun a b => b.published_date ≤ a.published_date) ∧
    ∀ d : Nat, (xs.foldl (fun a x => insertDesc x a) acc).filter
        (fun a => a.published_date == d) =
      acc.filter (fun a => a.published_date == d) ++
        xs.filter (fun a => a.published_date == d) := by
  induction xs with
  | nil => intro acc hacc; exact ⟨hacc, fun d => by simp⟩
  | cons x xs ih =>
    intro acc hacc
    have hacc1 := insertDesc_pairwise acc x hacc
    obtain ⟨hp, hf⟩ := ih (insertDesc x acc) hacc1
    refine ⟨by simpa using hp, fun d => ?_⟩
    have := hf d
    simp only [List.foldl_cons] at this ⊢
    rw [this, filter_insertDesc acc x d hacc]
    by_cases hd : x.published_date = d
    · rw [if_pos hd, List.filter_cons_of_pos (by simp [hd])]
      simp
    · rw [if_neg hd, List.filter_cons_of_neg (by simp [hd])]
      simp

/-- C6: for every aggregation run, the `scrape_all` output is sorted by
`published_date` in non-increasing order, and the sort is stable:
filtering the output at any fixed `published_date` gives exactly the
input's (source-iteration-order) occurrences of that date, unchanged. -/
theorem scrape_all_sorted_stable
    (scrapers : List (String × Except PyErr (List ScrapedArticle))) :
    (scrape_all scrapers).Pairwise (fun a b => b.published_date ≤ a.published_date) ∧
    ∀ d : Nat, (scrape_all scrapers).filter (fun a => a.published_date == d) =
      (gatherArticles scrapers).filter (fun a => a.published_date == d) := by
  obtain ⟨hp, hf⟩ := pySortDesc_invariant (gatherArticles scrapers) [] List.Pairwise.nil
  exact ⟨hp, fun d => by simpa using hf d⟩

/-- C9: the fetcher's last-request time is updated exactly when the HTTP
request succeeds: on a delivered non-error status it is set to the
request completion instant and the response returned; on an HTTP error
status, a transport error (timeouts included) or any other error the call
returns null and the state is unchanged. -/
theorem make_request_frame (st : ScraperState) (result : TransportResult) (t : Nat) :
    (∀ resp, (make_request st result t).1 = some resp →
      (make_request st result t).2 = { st with last_request_time := t }) ∧
    ((make_request st result t).1 = none → (make_request st result t).2 = st) ∧
    ((make_request st result t).1 = none ↔
      (∃ m, result = .requestError m) ∨ (∃ m, result = .otherError m) ∨
      (∃ status body, result = .response status body ∧ 400 ≤ status)) := by
  cases result with
  | response status body =>
    by_cases hs : 400 ≤ status
    · refine ⟨?_, ?_, ?_⟩ <;> simp [make_request, raisesForStatus, hs]
    · refine ⟨?_, ?_, ?_⟩ <;> simp [make_request, raisesForStatus, hs]
  | requestError m =>
    refine ⟨?_, ?_, ?_⟩ <;> simp [make_request]
  | otherError m =>
    refine ⟨?_, ?_, ?_⟩ <;> simp [make_request]

theorem make_request_frame_witness :
    (make_request { last_request_time := 0, rate_limit := 1 } (.response 200 "ok") 5).2 =
      { last_request_time := 5, rate_limit := 1 } ∧
    (make_request { last_request_time := 0, rate_limit := 1 } (.requestError "timeout") 7).2 =
      { last_request_time := 0, rate_limit := 1 } :=
  ⟨(make_request_frame { last_request_time := 0, rate_limit := 1 }
      (.response 200 "ok") 5).1 (200, "ok") rfl,
   (make_request_frame { last_request_time := 0, rate_limit := 1 }
      (.requestError "timeout") 7).2.1 rfl⟩

/-!  ## Theorems: research dedup (step 4)  -/

/-- The url value a result carries under `result.get("url")` (dicts only;
the fallback `None` here is never produced under the dict hypothesis of
the theorems below). -/
def urlVal : PyVal → PyVal
  | .pdict kvs => pyDictGet kvs "url"
  | _ => .pnone

/-- A search result the dedup loop can process without raising: a dict
whose url value is hashable. -/
def GoodResult : PyVal → Bool
  | .pdict kvs => (pyDictGet kvs "url").hashable
  | _ => false

/-- Reference subsequence the claim describes: keep each result whose url
is truthy and not already seen, first occurrence (by encounter order)
winning; the cap is applied separately by `List.take`. -/
def keepFirstByUrl (seen : List PyVal) : List PyVal → List PyVal
  | [] => []
  | r :: rest =>
    let u := urlVal r
    if u.truthy && !(seen.any (fun w => PyVal.beq u w)) then
      r :: keepFirstByUrl (seen ++ [u]) rest
    else
      keepFirstByUrl seen rest

theorem dedup_loop_eq_keepFirst (rest : List PyVal) :
    ∀ (unique seen : List PyVal) (mr : Int),
    (∀ r ∈ rest, GoodResult r = true) →
    (unique.length : Int) < mr →
    dedup_loop mr rest unique seen =
      .ok (unique ++ (keepFirstByUrl seen rest).take (mr - unique.length).toNat) := by
  induction rest with
  | nil => intro unique seen mr _ _; simp [dedup_loop, keepFirstByUrl]
  | cons r rest ih =>
    intro unique seen mr hgood hlt
    have hr : GoodResult r = true := hgood r (by simp)
    have hrest : ∀ x ∈ rest, GoodResult x = true := fun x hx => hgood x (by simp [hx])
    cases r with
    | pnone => simp [GoodResult] at hr
    | pbool b => simp [GoodResult] at hr
    | pint n => simp [GoodResult] at hr
    | pstr s => simp [GoodResult] at hr
    | plist xs => simp [GoodResult] at hr
    | pdict kvs =>
      have hh : (pyDictGet kvs "url").hashable = true := by
        simpa [GoodResult] using hr
      by_cases ht : (pyDictGet kvs "url").truthy
      · by_cases hs : seen.any (fun w => PyVal.beq (pyDictGet kvs "url") w)
        · -- already seen: both sides skip
          rw [show dedup_loop mr (PyVal.pdict kvs :: rest) unique seen =
                dedup_loop mr rest unique seen by
              simp [dedup_loop, ht, hh, hs]]
          rw [ih unique seen mr hrest hlt]
          simp [keepFirstByUrl, urlVal, ht, hs]
        · -- new url: append
          by_cases hcap : ((unique ++ [PyVal.pdict kvs]).length : Int) ≥ mr
          · -- the append reaches the cap: break with the appended list
            rw [show dedup_loop mr (PyVal.pdict kvs :: rest) unique seen =
                  .ok (unique ++ [PyVal.pdict kvs]) by
                simp only [dedup_loop]
                rw [if_pos ht, if_pos hh, if_neg (by simpa using hs), if_pos hcap]]
            have hone : (mr - (unique.length : Int)).toNat = 1 := by
              simp only [List.length_append, List.length_cons, List.length_nil] at hcap
              omega
            rw [hone]
            simp [keepFirstByUrl, urlVal, ht, hs]
          · -- still below the cap: recurse with the appended accumulator
            rw [show dedup_loop mr (PyVal.pdict kvs :: rest) unique seen =
                  dedup_loop mr rest (unique ++ [PyVal.pdict kvs])
                    (seen ++ [pyDictGet kvs "url"]) by
                simp only [dedup_loop]
                rw [if_pos ht, if_pos hh, if_neg (by simpa using hs), if_neg hcap]]
            rw [ih (unique ++ [PyVal.pdict kvs]) (seen ++ [pyDictGet kvs "url"]) mr hrest
              (by simp only [List.length_append, List.length_cons, List.length_nil] at hcap ⊢
                  omega)]
            have htake : (mr - (unique.length : Int)).toNat =
                (mr - ((unique ++ [PyVal.pdict kvs]).length : Int)).toNat + 1 := by
              simp only [List.length_append, List.length_cons, List.length_nil] at hcap ⊢
              omega
            rw [htake]
            simp [keepFirstByUrl, urlVal, ht, hs]
      · -- falsy url: both sides skip
        rw [show dedup_loop mr (PyVal.pdict kvs :: rest) unique seen =
              dedup_loop mr rest unique seen by
            simp [dedup_loop, ht]]
        rw [ih unique seen mr hrest hlt]
        simp [keepFirstByUrl, urlVal, ht]

theorem keepFirstByUrl_sublist (rest : List PyVal) :
    ∀ seen, (keepFirstByUrl seen rest).Sublist rest := by
  induction rest with
  | nil => intro seen; simp [keepFirstByUrl]
  | cons r rest ih =>
    intro seen
    simp only [keepFirstByUrl]
    by_cases hc : (urlVal r).truthy && !(seen.any (fun w => PyVal.beq (urlVal r) w))
    · rw [if_pos hc]
      exact List.Sublist.cons₂ r (ih _)
    · rw [if_neg hc]
      exact List.Sublist.cons r (ih seen)

theorem keepFirstByUrl_not_seen (rest : List PyVal) :
    ∀ seen, ∀ r ∈ keepFirstByUrl seen rest, ∀ u ∈ seen,
      PyVal.beq (urlVal r) u = false := by
  induction rest with
  | nil => intro seen r hr; simp [keepFirstByUrl] at hr
  | cons x rest ih =>
    intro seen r hr u hu
    simp only [keepFirstByUrl] at hr
    by_cases hc : (urlVal x).truthy && !(seen.any (fun w => PyVal.beq (urlVal x) w))
    · rw [if_pos hc] at hr
      rcases List.mem_cons.mp hr with rfl | hr
      · have hcc := hc
        simp only [Bool.and_eq_true, Bool.not_eq_true'] at hcc
        have := List.any_eq_false.mp hcc.2 u hu
        simpa using this
      · exact ih (seen ++ [urlVal x]) r hr u (by simp [hu])
    · rw [if_neg hc] at hr
      exact ih seen r hr u hu

theorem keepFirstByUrl_pairwise (rest : List PyVal) :
    ∀ seen, (keepFirstByUrl seen rest).Pairwise (fun a b => urlVal a ≠ urlVal b) := by
  induction rest with
  | nil => intro seen; simp [keepFirstByUrl]
  | cons x rest ih =>
    intro seen
    simp only [keepFirstByUrl]
    by_cases hc : (urlVal x).truthy && !(seen.any (fun w => PyVal.beq (urlVal x) w))
    · rw [if_pos hc]
      refine List.pairwise_cons.mpr ⟨?_, ih _⟩
      intro b hb
      have hfalse := keepFirstByUrl_not_seen rest (seen ++ [urlVal x]) b hb
        (urlVal x) (by simp)
      intro heq
      have htrue := (PyVal.beq_iff_eq (urlVal b) (urlVal x)).mpr heq.symm
      rw [htrue] at hfalse
      simp at hfalse
    · rw [if_neg hc]
      exact ih seen

/-- C7 counterexample: with `max_results = 0` the break test runs only
after the first append, so the kept list has one element, exceeding
`max_results` — refuting the cap clause of the claim as stated for every
`max_results`. -/
theorem dedup_exceeds_max_results_at_zero :
    dedup_results [.pdict [("url", .pstr "a")]] 0 = .ok [.pdict [("url", .pstr "a")]] ∧
    ¬ ((([(PyVal.pdict [("url", .pstr "a")])].length : Int)) ≤ 0) := by
  constructor
  · rfl
  · decide

/-- C7 (amended): for `max_results ≥ 1` (any call with a positive cap,
the default included) and accumulated results that are dicts with
hashable url values, the dedup step returns, without raising, exactly
the first-occurrence-by-url subsequence truncated to `max_results`: for
each url only the first result in encounter order is kept, encounter
order is preserved (the kept list is a sublist of the input), kept urls
are pairwise distinct, and the kept list has at most `max_results`
elements. -/
theorem dedup_first_occurrence_contract (all_results : List PyVal) (max_results : Int)
    (hmr : 1 ≤ max_results) (hgood : ∀ r ∈ all_results, GoodResult r = true) :
    dedup_results all_results max_results =
      .ok ((keepFirstByUrl [] all_results).take max_results.toNat) ∧
    ((keepFirstByUrl [] all_results).take max_results.toNat).Sublist all_results ∧
    ((keepFirstByUrl [] all_results).take max_results.toNat).Pairwise
      (fun a b => urlVal a ≠ urlVal b) ∧
    ((((keepFirstByUrl [] all_results).take max_results.toNat).length : Int) ≤ max_results) := by
  refine ⟨?_, ?_, ?_, ?_⟩
  · have := dedup_loop_eq_keepFirst all_results [] [] max_results hgood (by simpa using hmr)
    simpa [dedup_results] using this
  · exact (List.take_sublist _ _).trans (keepFirstByUrl_sublist all_results [])
  · exact (keepFirstByUrl_pairwise all_results []).sublist (List.take_sublist _ _)
  · have h1 : ((keepFirstByUrl [] all_results).take max_results.toNat).length ≤
        max_results.toNat :=
      List.length_take_le max_results.toNat (keepFirstByUrl [] all_results)
    omega

theorem dedup_first_occurrence_contract_witness :
    dedup_results
        [.pdict [("url", .pstr "a"), ("title", .pstr "t1")],
         .pdict [("url", .pstr "b")],
         .pdict [("url", .pstr "a"), ("title", .pstr "t2")]] 2 =
      .ok ((keepFirstByUrl []
        [.pdict [("url", .pstr "a"), ("title", .pstr "t1")],
         .pdict [("url", .pstr "b")],
         .pdict [("url", .pstr "a"), ("title", .pstr "t2")]]).take 2) :=
  (dedup_first_occurrence_contract
    [.pdict [("url", .pstr "a"), ("title", .pstr "t1")],
     .pdict [("url", .pstr "b")],
     .pdict [("url", .pstr "a"), ("title", .pstr "t2")]] 2
    (by decide) (by decide)).1
